import Mathlib

/-!
Verification of `core/time.py` (UserFriendlyTime and friends).

Shallow embedding conventions:
* Python `datetime` values are records of unbounded naturals
  (year, month, day, hour, minute, second, microsecond).  Python's
  `datetime.MINYEAR`/`MAXYEAR` bounds are not modelled.  Comparison of
  datetimes is field-lexicographic, as in CPython.
* Python strings are `List Char`; Python slicing clamps out-of-range
  indices, which `List.take`/`List.drop` reproduce exactly.
* The `parsedatetime` engine (`calendar.nlp`, `calendar.parseDT`) and the
  secondary argument converter are external collaborators; they enter the
  embedding as function parameters (oracles), so the theorems quantify
  over their possible outputs.
* `dateutil.relativedelta` arithmetic is implemented concretely (calendar
  aware month addition with day clamping, fixed-length smaller units),
  following dateutil's documented algorithm for the non-negative offsets
  produced by this module.
* Raised exceptions are modelled with `Except PyError`.
-/

/-- Python `datetime.datetime` (naive, UTC).  Fields as in CPython. -/
structure Datetime where
  year : Nat
  month : Nat
  day : Nat
  hour : Nat
  minute : Nat
  second : Nat
  microsecond : Nat
  deriving DecidableEq, Repr

/-- Python `dt1 < dt2`: lexicographic comparison of the field tuple. -/
def dtLt (a b : Datetime) : Bool :=
  decide (a.year < b.year ∨ (a.year = b.year ∧ (a.month < b.month ∨ (a.month = b.month ∧
    (a.day < b.day ∨ (a.day = b.day ∧ (a.hour < b.hour ∨ (a.hour = b.hour ∧
    (a.minute < b.minute ∨ (a.minute = b.minute ∧ (a.second < b.second ∨ (a.second = b.second ∧
    a.microsecond < b.microsecond))))))))))))

/-- Python `dt1 <= dt2`: lexicographic comparison of the field tuple. -/
def dtLe (a b : Datetime) : Bool :=
  decide (a.year < b.year ∨ (a.year = b.year ∧ (a.month < b.month ∨ (a.month = b.month ∧
    (a.day < b.day ∨ (a.day = b.day ∧ (a.hour < b.hour ∨ (a.hour = b.hour ∧
    (a.minute < b.minute ∨ (a.minute = b.minute ∧ (a.second < b.second ∨ (a.second = b.second ∧
    a.microsecond ≤ b.microsecond))))))))))))

/-- Gregorian leap-year rule, as in Python's `calendar` module. -/
def isLeap (y : Nat) : Bool :=
  decide ((y % 4 = 0 ∧ y % 100 ≠ 0) ∨ y % 400 = 0)

/-- `calendar.monthrange(y, m)[1]`: number of days of month `m` of year `y`.
Only called with `1 ≤ m ≤ 12` (month values are normalized before use). -/
def daysInMonth (y m : Nat) : Nat :=
  if m = 1 then 31
  else if m = 2 then (if isLeap y then 29 else 28)
  else if m = 3 then 31
  else if m = 4 then 30
  else if m = 5 then 31
  else if m = 6 then 30
  else if m = 7 then 31
  else if m = 8 then 31
  else if m = 9 then 30
  else if m = 10 then 31
  else if m = 11 then 30
  else if m = 12 then 31
  else 0

/-- Day number of a Gregorian date (days since 0000-03-01 era base);
standard civil-from-days algorithm, valid for `year ≥ 1`. -/
def daysFromCivil (y m d : Nat) : Nat :=
  let y' := if m ≤ 2 then y - 1 else y
  let era := y' / 400
  let yoe := y' % 400
  let mp := if m > 2 then m - 3 else m + 9
  let doy := (153 * mp + 2) / 5 + (d - 1)
  let doe := yoe * 365 + yoe / 4 - yoe / 100 + doy
  era * 146097 + doe

/-- Inverse of `daysFromCivil`: `(year, month, day)` of a day number. -/
def civilFromDays (z : Nat) : Nat × Nat × Nat :=
  let era := z / 146097
  let doe := z % 146097
  let yoe := (doe - doe / 1460 + doe / 36524 - doe / 146096) / 365
  let y := yoe + era * 400
  let doy := doe - (365 * yoe + yoe / 4 - yoe / 100)
  let mp := (5 * doy + 2) / 153
  let d := doy - (153 * mp + 2) / 5 + 1
  let m := if mp < 10 then mp + 3 else mp - 9
  (if m ≤ 2 then y + 1 else y, m, d)

/-- The instant as a count of microseconds (used for timedelta subtraction). -/
def totalMicro (dt : Datetime) : Nat :=
  ((daysFromCivil dt.year dt.month dt.day) * 86400
    + dt.hour * 3600 + dt.minute * 60 + dt.second) * 1000000 + dt.microsecond

/-- `dt + timedelta(seconds=secs)` for a non-negative whole number of
seconds (the microsecond field is untouched; the offsets produced by the
short-duration grammar have no sub-second part). -/
def addSecondsTo (dt : Datetime) (secs : Nat) : Datetime :=
  let z := daysFromCivil dt.year dt.month dt.day
  let sod := dt.hour * 3600 + dt.minute * 60 + dt.second
  let total := z * 86400 + sod + secs
  let z' := total / 86400
  let sod' := total % 86400
  let c := civilFromDays z'
  ⟨c.1, c.2.1, c.2.2, sod' / 3600, sod' % 3600 / 60, sod' % 60, dt.microsecond⟩

/-! ## The ShortTime regular expression

`ShortTime.compiled` is a sequence of seven optional groups, each
`(?:(?P<unit>[0-9]{1,k})(?:suffix-alternation))?`.  Because each group is
optional, the regex as a whole always matches (possibly emptily), and the
engine's backtracking order is: within a group, longer digit runs first,
then the suffix alternatives in written order; a group that cannot match
is skipped.  `matchSeq` enumerates the complete paths in exactly that
order, so its head is the `re.match` result and the first path with empty
rest is the `re.fullmatch` result. -/

/-- Match a literal character sequence at the head, returning the rest. -/
def litMatch : List Char → List Char → Option (List Char)
  | [], s => some s
  | c :: cs, x :: xs => if x = c then litMatch cs xs else none
  | _ :: _, [] => none

/-- Value of a run of decimal digits. -/
def natOfDigits (l : List Char) : Nat :=
  l.foldl (fun a c => a * 10 + (c.toNat - '0'.toNat)) 0

/-- One optional regex group: bounded digit run plus unit suffix. -/
structure GroupSpec where
  maxDigits : Nat
  sufs : List (List Char)

/-- All ways one group can match at the head of `s`, in engine order
(longest digit run first, suffix alternatives in written order). -/
def groupOptions (g : GroupSpec) (s : List Char) : List (Nat × List Char) :=
  let run := (s.takeWhile Char.isDigit).length
  let maxK := min g.maxDigits run
  (List.range maxK).flatMap fun i =>
    let k := maxK - i
    g.sufs.filterMap fun suf =>
      (litMatch suf (s.drop k)).map fun rest => (natOfDigits (s.take k), rest)

/-- The seven groups of `ShortTime.compiled`, in order.  Suffix
alternatives are listed in the engine's preference order; e.g.
`(?:min(?:ute)?s?|m)` tries "minutes", "minute", "mins", "min", "m". -/
def shortGroups : List GroupSpec :=
  [⟨1, ["years".toList, "year".toList, "y".toList]⟩,
   ⟨2, ["months".toList, "month".toList, "mo".toList]⟩,
   ⟨4, ["weeks".toList, "week".toList, "w".toList]⟩,
   ⟨5, ["days".toList, "day".toList, "d".toList]⟩,
   ⟨5, ["hours".toList, "hour".toList, "h".toList]⟩,
   ⟨5, ["minutes".toList, "minute".toList, "mins".toList, "min".toList, "m".toList]⟩,
   ⟨5, ["seconds".toList, "second".toList, "secs".toList, "sec".toList, "s".toList]⟩]

/-- All complete matches of the group sequence against `s`, in engine
backtracking order.  Each result is the per-group captures (`none` =
group did not participate) and the unconsumed rest of the string. -/
def matchSeq : List GroupSpec → List Char → List (List (Option Nat) × List Char)
  | [], s => [([], s)]
  | g :: gs, s =>
      ((groupOptions g s).flatMap fun vr =>
        (matchSeq gs vr.2).map fun t => (some vr.1 :: t.1, t.2))
      ++ ((matchSeq gs s).map fun t => (none :: t.1, t.2))

/-- `ShortTime.compiled.match(s)`: captures and end offset of the
(always-successful) anchored match. -/
def shortPrefixMatch (s : List Char) : List (Option Nat) × Nat :=
  match matchSeq shortGroups s with
  | [] => ([], 0)
  | t :: _ => (t.1, s.length - t.2.length)

/-- `ShortTime.compiled.fullmatch(s)`: captures of the first complete
path that consumes the whole string, if any. -/
def shortFullmatch (s : List Char) : Option (List (Option Nat)) :=
  (matchSeq shortGroups s).findSome? fun t => if t.2 = [] then some t.1 else none

/-- The keyword arguments passed to `relativedelta`:
`{k: int(v) for k, v in match.groupdict(default="0").items()}`. -/
structure Fields where
  years : Nat
  months : Nat
  weeks : Nat
  days : Nat
  hours : Nat
  minutes : Nat
  seconds : Nat
  deriving DecidableEq, Repr

/-- `groupdict(default="0")` then `int`: captures in group order, absent
groups contributing 0. -/
def toFields (l : List (Option Nat)) : Fields :=
  ⟨(l.getD 0 none).getD 0, (l.getD 1 none).getD 0, (l.getD 2 none).getD 0,
   (l.getD 3 none).getD 0, (l.getD 4 none).getD 0, (l.getD 5 none).getD 0,
   (l.getD 6 none).getD 0⟩

/-- `now + relativedelta(**data)` for the non-negative fields produced by
the grammar.  Follows dateutil: the constructor folds weeks into days and
normalizes months into years (`_fix`); addition shifts the year/month
fields, clamps the day to the target month's length, and then adds the
fixed-length remainder as a timedelta (dateutil's normalization of
seconds into minutes/hours/days leaves that total unchanged). -/
def addDelta (now : Datetime) (f : Fields) : Datetime :=
  let years := f.years + f.months / 12
  let monthsN := f.months % 12
  let m0 := now.month + monthsN
  let y1 := if m0 > 12 then now.year + years + 1 else now.year + years
  let m1 := if m0 > 12 then m0 - 12 else m0
  let d1 := min (daysInMonth y1 m1) now.day
  let secs := (f.days + 7 * f.weeks) * 86400 + f.hours * 3600 + f.minutes * 60 + f.seconds
  addSecondsTo ⟨y1, m1, d1, now.hour, now.minute, now.second, now.microsecond⟩ secs

/-- Exceptions raised by the modelled code. -/
inductive PyError where
  | badArgument (msg : String)
  | valueError (msg : String)
  | attributeError (name : String)
  | indexError
  deriving DecidableEq, Repr

deriving instance DecidableEq for Except

/-- `ShortTime.__init__` (src/core/time.py:34-41): full-match the compact
grammar, reject a missing or empty match, else `now + relativedelta`.
(`datetime.utcnow()` is the `now` parameter.) -/
def shortTimeInit (argument : List Char) (now : Datetime) : Except PyError Datetime :=
  match shortFullmatch argument with
  | none => .error (.badArgument "invalid time provided")
  | some fs =>
    if argument = [] then .error (.badArgument "invalid time provided")
    else .ok (addDelta now (toFields fs))

/-! ## HumanTime, Time, FutureTime

`calendar.parseDT(argument, sourceTime=now)` is the external
`parsedatetime` engine; its output `(dt, status)` is passed in as oracle
parameters.  `status` is a `pdtContext`; the code reads its
`hasDateOrTime` / `hasTime` properties and compares `accuracy` with
`pdt.pdtContext.ACU_HALFDAY`. -/

/-- The `pdtContext` fields consumed by this module. -/
structure PStatus where
  hasDateOrTime : Bool
  hasTime : Bool
  accuracy : Nat
  deriving DecidableEq, Repr

/-- `pdt.pdtContext.ACU_HALFDAY`.  The embedding only ever compares
`accuracy` with this distinguished constant, so its numeric value is
immaterial; it is fixed here so that statuses can be written concretely. -/
def ACU_HALFDAY : Nat := 16

/-- `dt.replace(hour=now.hour, minute=now.minute, second=now.second,
microsecond=now.microsecond)` — total, since `now`'s fields are valid. -/
def defaultTimeOfDay (dt now : Datetime) : Datetime :=
  { dt with hour := now.hour, minute := now.minute, second := now.second,
            microsecond := now.microsecond }

/-- `dt.replace(day=d)`: validated against the month of `dt`, raising
`ValueError` like CPython when the day is out of range. -/
def Datetime.replaceDay (dt : Datetime) (d : Nat) : Except PyError Datetime :=
  if 1 ≤ d ∧ d ≤ daysInMonth dt.year dt.month then .ok { dt with day := d }
  else .error (.valueError "day is out of range for month")

/-- Result of `HumanTime`-style resolution: `self.dt` and `self._past`. -/
structure ResolvedTime where
  dt : Datetime
  past : Bool
  deriving DecidableEq, Repr

/-- `HumanTime.__init__` (src/core/time.py:53-69), with the engine's
`(dt, status)` supplied as oracle values. -/
def humanTimeInit (now : Datetime) (dt : Datetime) (status : PStatus) :
    Except PyError ResolvedTime :=
  if !status.hasDateOrTime then
    .error (.badArgument "invalid time provided, try e.g. \"tomorrow\" or \"3 days\"")
  else
    let dt := if status.hasTime then dt else defaultTimeOfDay dt now
    .ok ⟨dt, dtLt dt now⟩

/-- `Time.__init__` (src/core/time.py:72-79): try `ShortTime`, fall back
to `HumanTime` on any exception; a short match forces `_past = False`. -/
def timeInit (now : Datetime) (argument : List Char) (dt : Datetime) (status : PStatus) :
    Except PyError ResolvedTime :=
  match shortTimeInit argument now with
  | .ok d => .ok ⟨d, false⟩
  | .error _ => humanTimeInit now dt status

/-- `FutureTime.__init__` (src/core/time.py:82-87): `Time` resolution,
then reject a past instant. -/
def futureTimeInit (now : Datetime) (argument : List Char) (dt : Datetime) (status : PStatus) :
    Except PyError ResolvedTime :=
  match timeInit now argument dt status with
  | .ok r => if r.past then .error (.badArgument "this time is in the past") else .ok r
  | .error e => .error e

/-! ## UserFriendlyTime -/

/-- One element of `calendar.nlp`'s result:
`(dt, status, begin, end, matched_text)` (the matched text is unused). -/
structure NLPElem where
  dt : Datetime
  status : PStatus
  start : Nat
  stop : Nat
  deriving DecidableEq, Repr

/-- The state of a successful conversion: `self.dt`, `self.now`, the
computed `remaining` string and `self.arg`. -/
structure ConvResult where
  dt : Datetime
  now : Datetime
  remaining : List Char
  arg : List Char
  deriving DecidableEq, Repr

/-- Python `str.isspace` members relevant to `strip()`. -/
def pyIsSpace (c : Char) : Bool :=
  c = ' ' || c = '\t' || c = '\n' || c = '\r' || c.toNat = 11 || c.toNat = 12

/-- Python `s.strip()`. -/
def pyStrip (l : List Char) : List Char :=
  ((l.dropWhile pyIsSpace).reverse.dropWhile pyIsSpace).reverse

/-- The characters stripped by `lstrip(" ,.!")`. -/
def timePunct (c : Char) : Bool :=
  c = ' ' || c = ',' || c = '.' || c = '!'

/-- Error message of the position check (src/core/time.py:160-165). -/
def posMsg : String :=
  "Time is either in an inappropriate location, which must be either at the end or beginning of your input, or I just flat out did not understand what you meant. Sorry."

/-- Error message for a missing opening quote (src/core/time.py:184). -/
def openMsg : String := "Expected quote before time input..."

/-- Error message for a missing closing quote (src/core/time.py:187). -/
def closeMsg : String := "If the time is quoted, you must unquote it."

/-- `UserFriendlyTime.check_constraints` (src/core/time.py:106-114).
The optional secondary converter is an oracle; `None` stores `remaining`
itself as `self.arg`. -/
def check_constraints (secondary : Option (List Char → Except PyError (List Char)))
    (now : Datetime) (dt : Datetime) (remaining : List Char) :
    Except PyError ConvResult :=
  if dtLt dt now then .error (.badArgument "This time is in the past.")
  else
    match secondary with
    | some f =>
      match f remaining with
      | .ok a => .ok ⟨dt, now, remaining, a⟩
      | .error e => .error e
    | none => .ok ⟨dt, now, remaining, remaining⟩

/-- The normalization step of `UserFriendlyTime.convert`
(src/core/time.py:131-142), applied after the short grammar misses and
before the engine is invoked: strip a trailing " fra nu" (note: the code
slices off NINE characters for this seven-character suffix), a leading
"for ", and a leading "me to "/"me in "/"me at ". -/
def normalizeArg (argument : List Char) : List Char :=
  let argument :=
    if (" fra nu".toList).isSuffixOf argument then
      pyStrip (argument.take (argument.length - 9))
    else argument
  let argument :=
    if ("for ".toList).isPrefixOf argument then pyStrip (argument.drop 4)
    else argument
  if argument.take 2 = "me".toList then
    if argument.take 6 = "me to ".toList ∨ argument.take 6 = "me in ".toList ∨
        argument.take 6 = "me at ".toList then
      argument.drop 6
    else argument
  else argument

/-- The candidate adjustments of src/core/time.py:167-178: time-of-day
defaulting when no time was reported, then the half-day bump of the day
field (which can raise `ValueError` via `replace`). -/
def adjustCandidate (now : Datetime) (e : NLPElem) : Except PyError Datetime :=
  if e.status.accuracy = ACU_HALFDAY then
    (if e.status.hasTime then e.dt else defaultTimeOfDay e.dt now).replaceDay (now.day + 1)
  else .ok (if e.status.hasTime then e.dt else defaultTimeOfDay e.dt now)

/-- Handling of the first nlp element once a date or time was reported
(src/core/time.py:160-197): position check, time-of-day defaulting,
half-day adjustment, quote checks, remaining-text computation. -/
def convertElem (secondary : Option (List Char → Except PyError (List Char)))
    (now : Datetime) (narg : List Char) (e : NLPElem) : Except PyError ConvResult :=
  if e.start ≠ 0 ∧ e.start ≠ 1 ∧ e.stop ≠ narg.length then
    .error (.badArgument posMsg)
  else
    match adjustCandidate now e with
    | .error err => .error err
    | .ok dt =>
      if e.start = 0 ∨ e.start = 1 then
        if e.start = 1 then
          match narg[0]? with
          | none => .error .indexError
          | some c0 =>
            if c0 ≠ '"' then .error (.badArgument openMsg)
            else if narg[e.stop]? ≠ some '"' then .error (.badArgument closeMsg)
            else check_constraints secondary now dt
              ((narg.drop (e.stop + 1)).dropWhile timePunct)
        else
          check_constraints secondary now dt ((narg.drop e.stop).dropWhile timePunct)
      else if narg.length = e.stop then
        check_constraints secondary now dt (pyStrip (narg.take e.start))
      else
        check_constraints secondary now dt []

/-- The natural-language half of `convert` (src/core/time.py:144-197),
on the already-normalized argument: a missing or dateless nlp result
falls back to `(now, whole input)`. -/
def convertNLP (secondary : Option (List Char → Except PyError (List Char)))
    (now : Datetime) (nlp : List Char → Option (List NLPElem)) (narg : List Char) :
    Except PyError ConvResult :=
  match nlp narg with
  | none => check_constraints secondary now now narg
  | some [] => check_constraints secondary now now narg
  | some (e :: _) =>
    if e.status.hasDateOrTime then convertElem secondary now narg e
    else check_constraints secondary now now narg

/-- `UserFriendlyTime.convert` (src/core/time.py:116-197).  `now` is the
`datetime.utcnow()` captured at the start; `nlp` is the engine oracle. -/
def convert (now : Datetime) (nlp : List Char → Option (List NLPElem))
    (secondary : Option (List Char → Except PyError (List Char)))
    (argument : List Char) : Except PyError ConvResult :=
  if (shortPrefixMatch argument).2 ≠ 0 then
    check_constraints secondary now
      (addDelta now (toFields (shortPrefixMatch argument).1))
      (pyStrip (argument.drop (shortPrefixMatch argument).2))
  else
    convertNLP secondary now nlp (normalizeArg argument)

/-! ## human_timedelta

`human_timedelta` always builds `relativedelta(later, earlier)`, so the
delta's components are non-negative; the embedding of `relativedelta`
covers that case. -/

/-- A normalized `dateutil.relativedelta` as produced by the
two-datetime constructor (non-negative components). -/
structure RD where
  years : Nat
  months : Nat
  days : Nat
  hours : Nat
  minutes : Nat
  seconds : Nat
  microseconds : Nat
  deriving DecidableEq, Repr

/-- `relativedelta._fix` for non-negative components: carry microseconds
into seconds, seconds into minutes, minutes into hours, hours into days,
and months into years. -/
def rdFix (d : RD) : RD :=
  let s0 := d.seconds + d.microseconds / 1000000
  let us := d.microseconds % 1000000
  let mi := d.minutes + s0 / 60
  let s := s0 % 60
  let h := d.hours + mi / 60
  let mi' := mi % 60
  let dd := d.days + h / 24
  let h' := h % 24
  let y := d.years + d.months / 12
  let mo := d.months % 12
  ⟨y, mo, dd, h', mi', s, us⟩

/-- `dt + relativedelta(months=m)` (month shift with day clamping, time
fields untouched), for a possibly negative month count. -/
def addMonthsTo (dt : Datetime) (months : Int) : Datetime :=
  let t : Int := (dt.year : Int) * 12 + ((dt.month : Int) - 1) + months
  let y := (t.ediv 12).toNat
  let m := (t.emod 12).toNat + 1
  ⟨y, m, min dt.day (daysInMonth y m), dt.hour, dt.minute, dt.second, dt.microsecond⟩

/-- The month-adjustment loop of `relativedelta.__init__(dt1, dt2)` for
`dt1 ≥ dt2`: decrement the month estimate while `dt2 + months` overshoots
`dt1`.  Fuel-bounded; the loop runs at most a couple of iterations. -/
def rdiffLoop : Nat → Int → Datetime → Datetime → Int × Datetime
  | 0, months, _, dt2 => (months, addMonthsTo dt2 months)
  | fuel + 1, months, dt1, dt2 =>
    let dtm := addMonthsTo dt2 months
    if dtLt dt1 dtm then rdiffLoop fuel (months - 1) dt1 dt2
    else (months, dtm)

/-- `relativedelta(dt1, dt2)` for `dt1 ≥ dt2`: month estimate from the
year/month fields, corrected by the overshoot loop; the residue
`dt1 - dtm` becomes seconds/microseconds, then `_fix` normalizes. -/
def rdiff (dt1 dt2 : Datetime) : RD :=
  let months0 : Int := ((dt1.year : Int) - dt2.year) * 12 + ((dt1.month : Int) - dt2.month)
  let r := rdiffLoop 1000 months0 dt1 dt2
  let diff := totalMicro dt1 - totalMicro r.2
  rdFix ⟨0, r.1.toNat, 0, 0, 0, diff / 1000000, diff % 1000000⟩

/-- `getattr(delta, name)` on a `relativedelta`: only the real attribute
names resolve; anything else raises `AttributeError`.  (The Danish words
used by `human_timedelta`'s `attrs` list are not attributes.) -/
def rdGetattr (d : RD) (attr : String) : Option Nat :=
  if attr = "years" then some d.years
  else if attr = "months" then some d.months
  else if attr = "days" then some d.days
  else if attr = "hours" then some d.hours
  else if attr = "minutes" then some d.minutes
  else if attr = "seconds" then some d.seconds
  else if attr = "microseconds" then some d.microseconds
  else if attr = "weeks" then some (d.days / 7)
  else if attr = "leapdays" then some 0
  else none

/-- The delta and tense suffix chosen by `human_timedelta`
(src/core/time.py:203-209). -/
def humanDeltaRaw (dt source : Datetime) : RD × String :=
  if dtLt source dt then (rdiff dt source, "")
  else (rdiff source dt, " siden")

/-- The delta actually rendered: `+ relativedelta(seconds=+1)` when both
the microseconds and the seconds components are non-zero
(src/core/time.py:212-213).  dateutil `__add__` re-normalizes. -/
def humanDeltaAdjusted (dt source : Datetime) : RD :=
  let d := (humanDeltaRaw dt source).1
  if d.microseconds ≠ 0 ∧ d.seconds ≠ 0 then rdFix { d with seconds := d.seconds + 1 }
  else d

/-- The rendering loop and join of `human_timedelta`
(src/core/time.py:215-234): `getattr` over the (Danish) `attrs` list,
pluralization, and the and/comma join. -/
def renderDelta (delta : RD) (sfx : String) : Except PyError String := do
  let attrs : List String := ["år", "måneder", "dage", "timer", "minutter", "sekunder"]
  let output ← attrs.foldlM (fun (acc : List String) attr =>
    match rdGetattr delta attr with
    | none => Except.error (.attributeError attr)
    | some elem =>
      if elem = 0 then pure acc
      else if elem > 1 then pure (acc ++ [toString elem ++ " " ++ attr])
      else pure (acc ++ [toString elem ++ " " ++ attr.dropRight 1])) []
  match output with
  | [] => pure "now"
  | [a] => pure (a ++ sfx)
  | [a, b] => pure (a ++ " and " ++ b ++ sfx)
  | a :: b :: c :: _ => pure (a ++ ", " ++ b ++ " and " ++ c ++ sfx)

/-- `human_timedelta(dt, source=source)` (src/core/time.py:203-234). -/
def human_timedelta (dt source : Datetime) : Except PyError String :=
  renderDelta (humanDeltaAdjusted dt source) (humanDeltaRaw dt source).2

/-! ## Concrete data for the witness theorems -/

/-- A concrete reference instant. -/
def nowW : Datetime := ⟨2020, 1, 1, 0, 0, 0, 0⟩

/-- An nlp oracle that finds nothing. -/
def nlpNoneW : List Char → Option (List NLPElem) := fun _ => none

/-- nlp oracle: "tomorrow" matched at span [0, 8) of "tomorrow ok". -/
def nlpW2 : List Char → Option (List NLPElem) := fun _ =>
  some [⟨⟨2020, 1, 2, 0, 0, 0, 0⟩, ⟨true, true, 2⟩, 0, 8⟩]

/-- nlp oracle: "tomorrow" matched at span [1, 9) of "xtomorrow". -/
def nlpW3 : List Char → Option (List NLPElem) := fun _ =>
  some [⟨⟨2022, 5, 5, 5, 0, 0, 0⟩, ⟨true, true, 2⟩, 1, 9⟩]

/-- nlp oracle: "midnight" matched at span [0, 8) with the half-day
accuracy marker. -/
def nlpW5 : List Char → Option (List NLPElem) := fun _ =>
  some [⟨⟨2021, 6, 10, 0, 0, 0, 0⟩, ⟨true, true, ACU_HALFDAY⟩, 0, 8⟩]

/-- nlp oracle: a date-only match ("magic" standing for e.g. a weekday
name) at span [0, 5), with no time-of-day component. -/
def nlpW6 : List Char → Option (List NLPElem) := fun _ =>
  some [⟨⟨2020, 3, 5, 0, 0, 0, 0⟩, ⟨true, false, 2⟩, 0, 5⟩]

/-- nlp oracle for the C3 counterexample: "midnight" matched at span
[1, 9) of " midnight x" with the half-day accuracy marker, on January 31
(so that `replace(day=now.day+1)` asks for day 32). -/
def nlpCE : List Char → Option (List NLPElem) := fun _ =>
  some [⟨⟨2021, 1, 31, 0, 0, 0, 0⟩, ⟨true, true, ACU_HALFDAY⟩, 1, 9⟩]

/-- Reference instant for the C3 counterexample: 2021-01-31 10:00 UTC. -/
def nowCE : Datetime := ⟨2021, 1, 31, 10, 0, 0, 0⟩

/-! ## Helper lemmas -/

theorem dtLt_false_imp_dtLe {a b : Datetime} (h : dtLt a b = false) : dtLe b a = true := by
  simp only [dtLt, dtLe, decide_eq_false_iff_not, decide_eq_true_eq] at *
  omega

theorem cc_ok {secondary : Option (List Char → Except PyError (List Char))}
    {now dt : Datetime} {remaining : List Char} {r : ConvResult}
    (h : check_constraints secondary now dt remaining = .ok r) :
    r.dt = dt ∧ r.now = now ∧ r.remaining = remaining ∧ dtLt dt now = false := by
  unfold check_constraints at h
  split at h
  · simp at h
  · next hlt =>
    have hfalse : dtLt dt now = false := by simpa using hlt
    split at h
    · split at h
      · injection h with h
        subst h
        exact ⟨rfl, rfl, rfl, hfalse⟩
      · simp at h
    · injection h with h
      subst h
      exact ⟨rfl, rfl, rfl, hfalse⟩

theorem convert_nlp_path {now : Datetime} {nlp : List Char → Option (List NLPElem)}
    {secondary : Option (List Char → Except PyError (List Char))} {argument : List Char}
    (h : (shortPrefixMatch argument).2 = 0) :
    convert now nlp secondary argument = convertNLP secondary now nlp (normalizeArg argument) := by
  unfold convert
  rw [h]
  simp

theorem convertNLP_elem {secondary : Option (List Char → Except PyError (List Char))}
    {now : Datetime} {nlp : List Char → Option (List NLPElem)} {narg : List Char}
    {e : NLPElem} {rest : List NLPElem}
    (hnlp : nlp narg = some (e :: rest)) (hDT : e.status.hasDateOrTime = true) :
    convertNLP secondary now nlp narg = convertElem secondary now narg e := by
  unfold convertNLP
  rw [hnlp]
  simp [hDT]

/-! ## Claim theorems -/

/-- C1: for every input on which the short-duration grammar matches with
at least one numeric unit group (full match for `ShortTime`, prefix match
for `UserFriendlyTime.convert`), the resolved instant is exactly
`now + relativedelta(fields)`, where the fields are the parsed integers
and units absent from the match contribute 0 (via `toFields`). -/
theorem C1_short_duration_resolution :
    (∀ (argument : List Char) (now : Datetime) (fs : List (Option Nat)),
      shortFullmatch argument = some fs → argument ≠ [] →
      shortTimeInit argument now = .ok (addDelta now (toFields fs))) ∧
    (∀ (now : Datetime) (nlp : List Char → Option (List NLPElem))
      (secondary : Option (List Char → Except PyError (List Char)))
      (argument : List Char) (fs : List (Option Nat)) (n : Nat) (r : ConvResult),
      shortPrefixMatch argument = (fs, n) → n ≠ 0 →
      convert now nlp secondary argument = .ok r →
      r.dt = addDelta now (toFields fs)) := by
  constructor
  · intro argument now fs hful hne
    unfold shortTimeInit
    rw [hful]
    simp [hne]
  · intro now nlp secondary argument fs n r hpm hn hok
    unfold convert at hok
    rw [hpm] at hok
    simp only [hn, if_true, ne_eq, not_false_iff] at hok
    exact (cc_ok hok).1

/-- Witness for C1: "2d12h" full-matches to days=2, hours=12 and resolves
to 2020-01-03 12:00; "10m hello" prefix-matches to minutes=10 and
`convert` resolves it to `now + relativedelta(minutes=10)`. -/
theorem C1_short_duration_resolution_witness :
    (shortFullmatch "2d12h".toList = some [none, none, none, some 2, some 12, none, none] ∧
     addDelta nowW (toFields [none, none, none, some 2, some 12, none, none]) =
       ⟨2020, 1, 3, 12, 0, 0, 0⟩ ∧
     shortTimeInit "2d12h".toList nowW =
       .ok (addDelta nowW (toFields [none, none, none, some 2, some 12, none, none]))) ∧
    (shortPrefixMatch "10m hello".toList = ([none, none, none, none, none, some 10, none], 3) ∧
     convert nowW nlpNoneW none "10m hello".toList =
       .ok ⟨⟨2020, 1, 1, 0, 10, 0, 0⟩, nowW, "hello".toList, "hello".toList⟩ ∧
     (⟨⟨2020, 1, 1, 0, 10, 0, 0⟩, nowW, "hello".toList, "hello".toList⟩ : ConvResult).dt =
       addDelta nowW (toFields [none, none, none, none, none, some 10, none])) := by
  refine ⟨⟨by decide, by decide, ?_⟩, ⟨by decide, by decide, ?_⟩⟩
  · exact C1_short_duration_resolution.1 ("2d12h".toList) nowW
      [none, none, none, some 2, some 12, none, none] (by decide) (by decide)
  · exact C1_short_duration_resolution.2 nowW nlpNoneW none ("10m hello".toList)
      [none, none, none, none, none, some 10, none] 3
      ⟨⟨2020, 1, 1, 0, 10, 0, 0⟩, nowW, "hello".toList, "hello".toList⟩
      (by decide) (by decide) (by decide)

/-- C10: whatever path `UserFriendlyTime.convert` takes, a successful
conversion's resolved instant is never before the reference `now`
captured at the start of the call — `check_constraints` is on every
return path and rejects `dt < now`. -/
theorem C10_success_never_past :
    ∀ (now : Datetime) (nlp : List Char → Option (List NLPElem))
      (secondary : Option (List Char → Except PyError (List Char)))
      (argument : List Char) (r : ConvResult),
      convert now nlp secondary argument = .ok r →
      r.now = now ∧ dtLe now r.dt = true := by
  intro now nlp secondary argument r hok
  have key : ∀ (dt : Datetime) (rem : List Char),
      check_constraints secondary now dt rem = .ok r →
      r.now = now ∧ dtLe now r.dt = true := by
    intro dt rem h
    obtain ⟨h1, h2, _, h4⟩ := cc_ok h
    refine ⟨h2, ?_⟩
    rw [h1]
    exact dtLt_false_imp_dtLe h4
  unfold convert convertNLP convertElem at hok
  repeat
    first
    | exact key _ _ hok
    | (split at hok)
    | simp at hok

/-- Witness for C10: a concrete successful conversion of "10m" whose
resolved instant is not before the reference now. -/
theorem C10_success_never_past_witness :
    convert nowW nlpNoneW none "10m".toList =
      .ok ⟨⟨2020, 1, 1, 0, 10, 0, 0⟩, nowW, [], []⟩ ∧
    dtLe nowW (⟨⟨2020, 1, 1, 0, 10, 0, 0⟩, nowW, [], []⟩ : ConvResult).dt = true := by
  refine ⟨by decide, ?_⟩
  exact (C10_success_never_past nowW nlpNoneW none ("10m".toList)
    ⟨⟨2020, 1, 1, 0, 10, 0, 0⟩, nowW, [], []⟩ (by decide)).2

/-- C2: when the natural-language resolver produced the match and the
conversion succeeds, the remaining text is: for a match starting at
offset 0, the text after the match end with leading " ,.!" stripped; for
a match starting at offset 1 (quoted form), the text after the closing
quote with the same characters stripped; otherwise the match ends at the
input's end and the remaining text is the text before the match start,
whitespace-trimmed. -/
theorem C2_remaining_text :
    ∀ (now : Datetime) (nlp : List Char → Option (List NLPElem))
      (secondary : Option (List Char → Except PyError (List Char)))
      (argument narg : List Char) (e : NLPElem) (rest : List NLPElem) (r : ConvResult),
      (shortPrefixMatch argument).2 = 0 →
      normalizeArg argument = narg →
      nlp narg = some (e :: rest) →
      e.status.hasDateOrTime = true →
      convert now nlp secondary argument = .ok r →
      ((e.start = 0 → r.remaining = (narg.drop e.stop).dropWhile timePunct) ∧
       (e.start = 1 → r.remaining = (narg.drop (e.stop + 1)).dropWhile timePunct) ∧
       (e.start ≠ 0 → e.start ≠ 1 →
         e.stop = narg.length ∧ r.remaining = pyStrip (narg.take e.start))) := by
  intro now nlp secondary argument narg e rest r hshort hnorm hnlp hDT hok
  rw [convert_nlp_path hshort, hnorm, convertNLP_elem hnlp hDT] at hok
  unfold convertElem at hok
  by_cases h0 : e.start = 0
  · refine ⟨fun _ => ?_, fun h1 => by omega, fun hne0 _ => absurd h0 hne0⟩
    simp [h0] at hok
    repeat
      first
      | exact (cc_ok hok).2.2.1
      | omega
      | exact Except.noConfusion hok
      | (split at hok)
      | (simp at hok)
  · by_cases h1 : e.start = 1
    · refine ⟨fun hh => by omega, fun _ => ?_, fun _ hne1 => absurd h1 hne1⟩
      simp [h1] at hok
      repeat
        first
        | exact (cc_ok hok).2.2.1
        | omega
        | exact Except.noConfusion hok
        | (split at hok)
        | (simp at hok)
    · refine ⟨fun hh => absurd hh h0, fun hh => absurd hh h1, fun _ _ => ?_⟩
      by_cases hstop : e.stop = narg.length
      · refine ⟨hstop, ?_⟩
        repeat
          first
          | exact (cc_ok hok).2.2.1
          | omega
          | exact Except.noConfusion hok
          | (split at hok)
          | (simp at hok)
      · exfalso
        repeat
          first
          | omega
          | exact Except.noConfusion hok
          | (split at hok)
          | (simp at hok)

/-- Witness for C2: "tomorrow ok" with the match spanning [0, 8) yields
remaining text "ok" (the text after the match, punctuation stripped). -/
theorem C2_remaining_text_witness :
    convert nowW nlpW2 none "tomorrow ok".toList =
      .ok ⟨⟨2020, 1, 2, 0, 0, 0, 0⟩, nowW, "ok".toList, "ok".toList⟩ ∧
    (⟨⟨2020, 1, 2, 0, 0, 0, 0⟩, nowW, "ok".toList, "ok".toList⟩ : ConvResult).remaining =
      (("tomorrow ok".toList).drop 8).dropWhile timePunct := by
  refine ⟨by decide, ?_⟩
  exact (C2_remaining_text nowW nlpW2 none ("tomorrow ok".toList) ("tomorrow ok".toList)
    ⟨⟨2020, 1, 2, 0, 0, 0, 0⟩, ⟨true, true, 2⟩, 0, 8⟩ []
    ⟨⟨2020, 1, 2, 0, 0, 0, 0⟩, nowW, "ok".toList, "ok".toList⟩
    (by decide) (by decide) (by decide) (by decide) (by decide)).1 (by decide)

theorem convertElem_dt {secondary : Option (List Char → Except PyError (List Char))}
    {now : Datetime} {narg : List Char} {e : NLPElem} {r : ConvResult}
    (h : convertElem secondary now narg e = .ok r) :
    ∃ dt, adjustCandidate now e = .ok dt ∧ r.dt = dt := by
  unfold convertElem at h
  repeat
    first
    | exact ⟨_, by assumption, (cc_ok h).1⟩
    | exact Except.noConfusion h
    | (split at h)

/-- C5: when the resolver's accuracy marker equals the half-day marker
and the conversion succeeds, the resolved instant is the candidate (after
the time-of-day defaulting step, if any) with its day field replaced by
`now.day + 1`, every other field unchanged. -/
theorem C5_halfday_next_day :
    ∀ (now : Datetime) (nlp : List Char → Option (List NLPElem))
      (secondary : Option (List Char → Except PyError (List Char)))
      (argument narg : List Char) (e : NLPElem) (rest : List NLPElem) (r : ConvResult),
      (shortPrefixMatch argument).2 = 0 →
      normalizeArg argument = narg →
      nlp narg = some (e :: rest) →
      e.status.hasDateOrTime = true →
      e.status.accuracy = ACU_HALFDAY →
      convert now nlp secondary argument = .ok r →
      r.dt = { (if e.status.hasTime then e.dt else defaultTimeOfDay e.dt now) with
               day := now.day + 1 } := by
  intro now nlp secondary argument narg e rest r hshort hnorm hnlp hDT hacc hok
  rw [convert_nlp_path hshort, hnorm, convertNLP_elem hnlp hDT] at hok
  obtain ⟨dtv, hif, hdt⟩ := convertElem_dt hok
  unfold adjustCandidate at hif
  rw [if_pos hacc] at hif
  rw [hdt]
  unfold Datetime.replaceDay at hif
  split at hif <;> try split at hif
  all_goals simp_all

/-- Witness for C5: "midnight" on 2021-06-01 12:00 with a half-day-marked
candidate of 2021-06-10 00:00 resolves to day `1 + 1 = 2` of that
candidate's month, i.e. 2021-06-02 00:00. -/
theorem C5_halfday_next_day_witness :
    convert ⟨2021, 6, 1, 12, 0, 0, 0⟩ nlpW5 none "midnight".toList =
      .ok ⟨⟨2021, 6, 2, 0, 0, 0, 0⟩, ⟨2021, 6, 1, 12, 0, 0, 0⟩, [], []⟩ ∧
    (⟨⟨2021, 6, 2, 0, 0, 0, 0⟩, ⟨2021, 6, 1, 12, 0, 0, 0⟩, [], []⟩ : ConvResult).dt =
      { (⟨2021, 6, 10, 0, 0, 0, 0⟩ : Datetime) with
        day := (⟨2021, 6, 1, 12, 0, 0, 0⟩ : Datetime).day + 1 } := by
  refine ⟨by decide, ?_⟩
  exact C5_halfday_next_day ⟨2021, 6, 1, 12, 0, 0, 0⟩ nlpW5 none ("midnight".toList)
    ("midnight".toList) ⟨⟨2021, 6, 10, 0, 0, 0, 0⟩, ⟨true, true, ACU_HALFDAY⟩, 0, 8⟩ []
    ⟨⟨2021, 6, 2, 0, 0, 0, 0⟩, ⟨2021, 6, 1, 12, 0, 0, 0⟩, [], []⟩
    (by decide) (by decide) (by decide) (by decide) (by decide) (by decide)

/-- C6: when a date or time was reported but no time-of-day component,
the candidate keeps its resolved date fields and takes
hour/minute/second/microsecond from the reference now — in
`HumanTime.__init__` and, likewise, in `UserFriendlyTime.convert` (there
the statement concerns the final resolved instant, so the half-day
accuracy case, which further bumps the day and cannot co-occur with a
missing time-of-day in the real engine, is excluded). -/
theorem C6_time_of_day_defaulting :
    (∀ (now dt : Datetime) (status : PStatus),
      status.hasDateOrTime = true → status.hasTime = false →
      humanTimeInit now dt status =
        .ok ⟨⟨dt.year, dt.month, dt.day, now.hour, now.minute, now.second, now.microsecond⟩,
             dtLt ⟨dt.year, dt.month, dt.day, now.hour, now.minute, now.second, now.microsecond⟩
               now⟩) ∧
    (∀ (now : Datetime) (nlp : List Char → Option (List NLPElem))
      (secondary : Option (List Char → Except PyError (List Char)))
      (argument narg : List Char) (e : NLPElem) (rest : List NLPElem) (r : ConvResult),
      (shortPrefixMatch argument).2 = 0 →
      normalizeArg argument = narg →
      nlp narg = some (e :: rest) →
      e.status.hasDateOrTime = true →
      e.status.hasTime = false →
      e.status.accuracy ≠ ACU_HALFDAY →
      convert now nlp secondary argument = .ok r →
      r.dt = ⟨e.dt.year, e.dt.month, e.dt.day,
              now.hour, now.minute, now.second, now.microsecond⟩) := by
  constructor
  · intro now dt status hDT hT
    unfold humanTimeInit
    rw [hDT, hT]
    rfl
  · intro now nlp secondary argument narg e rest r hshort hnorm hnlp hDT hT hacc hok
    rw [convert_nlp_path hshort, hnorm, convertNLP_elem hnlp hDT] at hok
    obtain ⟨dtv, hif, hdt⟩ := convertElem_dt hok
    unfold adjustCandidate at hif
    rw [if_neg hacc] at hif
    rw [hdt]
    simp only [hT] at hif
    simp at hif
    subst hif
    rfl

/-- Witness for C6: a date-only candidate 2020-05-06 with now
2020-01-02 03:04:05.000006 resolves (in `HumanTime`) to
2020-05-06 03:04:05.000006; and `convert` of "magic" with a date-only
match and now 2020-03-01 07:30:15.000250 resolves to
2020-03-05 07:30:15.000250. -/
theorem C6_time_of_day_defaulting_witness :
    humanTimeInit ⟨2020, 1, 2, 3, 4, 5, 6⟩ ⟨2020, 5, 6, 0, 0, 0, 0⟩ ⟨true, false, 2⟩ =
      .ok ⟨⟨2020, 5, 6, 3, 4, 5, 6⟩, dtLt ⟨2020, 5, 6, 3, 4, 5, 6⟩ ⟨2020, 1, 2, 3, 4, 5, 6⟩⟩ ∧
    convert ⟨2020, 3, 1, 7, 30, 15, 250⟩ nlpW6 none "magic".toList =
      .ok ⟨⟨2020, 3, 5, 7, 30, 15, 250⟩, ⟨2020, 3, 1, 7, 30, 15, 250⟩, [], []⟩ ∧
    (⟨⟨2020, 3, 5, 7, 30, 15, 250⟩, ⟨2020, 3, 1, 7, 30, 15, 250⟩, [], []⟩ : ConvResult).dt =
      ⟨2020, 3, 5, 7, 30, 15, 250⟩ := by
  refine ⟨?_, by decide, ?_⟩
  · exact C6_time_of_day_defaulting.1 ⟨2020, 1, 2, 3, 4, 5, 6⟩ ⟨2020, 5, 6, 0, 0, 0, 0⟩
      ⟨true, false, 2⟩ rfl rfl
  · exact C6_time_of_day_defaulting.2 ⟨2020, 3, 1, 7, 30, 15, 250⟩ nlpW6 none ("magic".toList)
      ("magic".toList) ⟨⟨2020, 3, 5, 0, 0, 0, 0⟩, ⟨true, false, 2⟩, 0, 5⟩ []
      ⟨⟨2020, 3, 5, 7, 30, 15, 250⟩, ⟨2020, 3, 1, 7, 30, 15, 250⟩, [], []⟩
      (by decide) (by decide) (by decide) (by decide) (by decide) (by decide) (by decide)

/-- C7: an input resolving (through the natural-language engine) to an
instant strictly before now makes `FutureTime` fail with the past-time
error while plain `Time` succeeds with the past flag true; and any input
the short-duration grammar full-matches (non-emptily) always carries a
past flag of false. -/
theorem C7_past_flag_and_future_rejection :
    (∀ (now : Datetime) (argument : List Char) (dt : Datetime) (status : PStatus)
       (err : PyError),
      shortTimeInit argument now = .error err →
      status.hasDateOrTime = true →
      dtLt (if status.hasTime then dt else defaultTimeOfDay dt now) now = true →
      timeInit now argument dt status =
        .ok ⟨(if status.hasTime then dt else defaultTimeOfDay dt now), true⟩ ∧
      futureTimeInit now argument dt status =
        .error (.badArgument "this time is in the past")) ∧
    (∀ (now : Datetime) (argument : List Char) (dt : Datetime) (status : PStatus)
       (fs : List (Option Nat)),
      shortFullmatch argument = some fs → argument ≠ [] →
      timeInit now argument dt status = .ok ⟨addDelta now (toFields fs), false⟩ ∧
      futureTimeInit now argument dt status = .ok ⟨addDelta now (toFields fs), false⟩) := by
  constructor
  · intro now argument dt status err hserr hDT hpast
    have ht : timeInit now argument dt status =
        .ok ⟨(if status.hasTime then dt else defaultTimeOfDay dt now), true⟩ := by
      unfold timeInit
      rw [hserr]
      unfold humanTimeInit
      rw [hDT]
      simp [hpast]
    refine ⟨ht, ?_⟩
    unfold futureTimeInit
    rw [ht]
    rfl
  · intro now argument dt status fs hful hne
    have hs : shortTimeInit argument now = .ok (addDelta now (toFields fs)) := by
      unfold shortTimeInit
      rw [hful]
      simp [hne]
    have ht : timeInit now argument dt status = .ok ⟨addDelta now (toFields fs), false⟩ := by
      unfold timeInit
      rw [hs]
    refine ⟨ht, ?_⟩
    unfold futureTimeInit
    rw [ht]
    rfl

/-- Witness for C7: "yesterday" (dt resolved to 2020-01-01, now
2020-01-02) gives `Time` success with past flag true and `FutureTime`
failure; "10m" full-matches the grammar and gives past flag false. -/
theorem C7_past_flag_and_future_rejection_witness :
    (shortTimeInit "yesterday".toList ⟨2020, 1, 2, 0, 0, 0, 0⟩ =
      .error (.badArgument "invalid time provided") ∧
     timeInit ⟨2020, 1, 2, 0, 0, 0, 0⟩ "yesterday".toList ⟨2020, 1, 1, 0, 0, 0, 0⟩
        ⟨true, true, 2⟩ = .ok ⟨⟨2020, 1, 1, 0, 0, 0, 0⟩, true⟩ ∧
     futureTimeInit ⟨2020, 1, 2, 0, 0, 0, 0⟩ "yesterday".toList ⟨2020, 1, 1, 0, 0, 0, 0⟩
        ⟨true, true, 2⟩ = .error (.badArgument "this time is in the past")) ∧
    (shortFullmatch "10m".toList = some [none, none, none, none, none, some 10, none] ∧
     timeInit ⟨2020, 1, 2, 0, 0, 0, 0⟩ "10m".toList ⟨2020, 1, 1, 0, 0, 0, 0⟩ ⟨true, true, 2⟩ =
       .ok ⟨addDelta ⟨2020, 1, 2, 0, 0, 0, 0⟩
              (toFields [none, none, none, none, none, some 10, none]), false⟩) := by
  have h1 := C7_past_flag_and_future_rejection.1 ⟨2020, 1, 2, 0, 0, 0, 0⟩ ("yesterday".toList)
    ⟨2020, 1, 1, 0, 0, 0, 0⟩ ⟨true, true, 2⟩ (.badArgument "invalid time provided")
    (by decide) (by decide) (by decide)
  have h2 := C7_past_flag_and_future_rejection.2 ⟨2020, 1, 2, 0, 0, 0, 0⟩ ("10m".toList)
    ⟨2020, 1, 1, 0, 0, 0, 0⟩ ⟨true, true, 2⟩ [none, none, none, none, none, some 10, none]
    (by decide) (by decide)
  exact ⟨⟨by decide, h1.1, h1.2⟩, ⟨by decide, h2.1⟩⟩

theorem adjustCandidate_error {now : Datetime} {e : NLPElem} {err : PyError}
    (h : adjustCandidate now e = .error err) :
    err = .valueError "day is out of range for month" := by
  unfold adjustCandidate Datetime.replaceDay at h
  repeat
    first
    | exact Except.noConfusion h
    | (injection h with h; exact h.symm)
    | (split at h)

theorem cc_error_none {now dt : Datetime} {rem : List Char} {x : PyError}
    (h : check_constraints none now dt rem = .error x) :
    x = .badArgument "This time is in the past." := by
  unfold check_constraints at h
  split at h
  · injection h with h
    exact h.symm
  · exact Except.noConfusion h

theorem convertElem_none_not_posMsg {now : Datetime} {narg : List Char} {e : NLPElem}
    (hpos : ¬(e.start ≠ 0 ∧ e.start ≠ 1 ∧ e.stop ≠ narg.length)) :
    convertElem none now narg e ≠ .error (.badArgument posMsg) := by
  intro habs
  unfold convertElem at habs
  rw [if_neg hpos] at habs
  split at habs
  · rename_i err heq
    injection habs with habs
    have he := adjustCandidate_error heq
    rw [he] at habs
    exact PyError.noConfusion habs
  · split at habs
    · split at habs
      · split at habs
        · exact absurd habs (by decide)
        · split at habs
          · exact absurd habs (by decide)
          · split at habs
            · exact absurd habs (by decide)
            · exact absurd (cc_error_none habs) (by decide)
      · exact absurd (cc_error_none habs) (by decide)
    · split at habs
      · exact absurd (cc_error_none habs) (by decide)
      · exact absurd (cc_error_none habs) (by decide)

/-- C3 (amended): with a date or time reported, the positional error is
raised exactly when the match neither begins at offset 0 or 1 nor ends
at the input's length.  When the match begins at offset 1 — provided the
candidate adjustment (in particular the half-day day bump, which can
raise `ValueError` first) succeeded — a missing double-quote at offset 0
raises the opening-quote error, and, with the opening quote present, a
missing double-quote right after the match end raises the closing-quote
error. -/
theorem C3_position_and_quote_errors :
    ∀ (now : Datetime) (nlp : List Char → Option (List NLPElem))
      (argument narg : List Char) (e : NLPElem) (rest : List NLPElem),
      (shortPrefixMatch argument).2 = 0 →
      normalizeArg argument = narg →
      nlp narg = some (e :: rest) →
      e.status.hasDateOrTime = true →
      e.start < e.stop → e.stop ≤ narg.length →
      ((convert now nlp none argument = .error (.badArgument posMsg) ↔
          (e.start ≠ 0 ∧ e.start ≠ 1 ∧ e.stop ≠ narg.length)) ∧
       (e.start = 1 →
        ∀ dtA : Datetime, adjustCandidate now e = .ok dtA →
          ((narg[0]? ≠ some '"' →
             convert now nlp none argument = .error (.badArgument openMsg)) ∧
           (narg[0]? = some '"' → narg[e.stop]? ≠ some '"' →
             convert now nlp none argument = .error (.badArgument closeMsg))))) := by
  intro now nlp argument narg e rest hshort hnorm hnlp hDT hlt hle
  have hc : convert now nlp none argument = convertElem none now narg e := by
    rw [convert_nlp_path hshort, hnorm, convertNLP_elem hnlp hDT]
  rw [hc]
  constructor
  · constructor
    · intro habs
      by_contra hpos
      exact convertElem_none_not_posMsg hpos habs
    · intro hpos
      unfold convertElem
      rw [if_pos hpos]
  · intro h1 dtA hadj
    have hposF : ¬(e.start ≠ 0 ∧ e.start ≠ 1 ∧ e.stop ≠ narg.length) := by
      intro hx
      exact hx.2.1 h1
    cases hg : narg[0]? with
    | none =>
      exfalso
      cases narg with
      | nil =>
        simp at hle
        omega
      | cons a l =>
        simp at hg
    | some c0 =>
      constructor
      · intro hq
        have hc0 : c0 ≠ '"' := by
          intro hcq
          rw [hcq] at hq
          exact hq rfl
        unfold convertElem
        rw [if_neg hposF, hadj]
        simp [h1, hg, hc0]
      · intro hq0 hqstop
        have hc0 : c0 = '"' := Option.some.inj hq0
        unfold convertElem
        rw [if_neg hposF, hadj]
        simp [h1, hg, hc0, hqstop]

/-- Witness for C3 (amended): "xtomorrow" with a match at span [1, 9)
(offset 1, no quote at offset 0) fails with the opening-quote error, and
that error is not the positional error. -/
theorem C3_position_and_quote_errors_witness :
    convert nowW nlpW3 none "xtomorrow".toList = .error (.badArgument openMsg) ∧
    ¬(convert nowW nlpW3 none "xtomorrow".toList = .error (.badArgument posMsg)) := by
  have h := C3_position_and_quote_errors nowW nlpW3 ("xtomorrow".toList) ("xtomorrow".toList)
    ⟨⟨2022, 5, 5, 5, 0, 0, 0⟩, ⟨true, true, 2⟩, 1, 9⟩ []
    (by decide) (by decide) (by decide) (by decide) (by decide) (by decide)
  have hopen := (h.2 rfl ⟨2022, 5, 5, 5, 0, 0, 0⟩ (by decide)).1 (by decide)
  refine ⟨hopen, fun habs => ?_⟩
  have := h.1.mp habs
  exact this.2.1 rfl

/-- Counterexample for C3 as frozen: on 2021-01-31, a half-day-marked
match at offset 1 of " midnight x" (no quote at offset 0) makes the
conversion fail with `ValueError` from `replace(day=32)` — not with the
missing-opening-quote error the claim requires. -/
theorem C3_quote_error_counterexample :
    convert nowCE nlpCE none " midnight x".toList =
      .error (.valueError "day is out of range for month") ∧
    convert nowCE nlpCE none " midnight x".toList ≠ .error (.badArgument openMsg) ∧
    (" midnight x".toList)[0]? ≠ some '"' := by decide

/-- C4: the normalization step's " fra nu" handling slices NINE trailing
characters off although the suffix it tests for is seven characters
long, so the two characters before " fra nu" are lost: "kl 5 fra nu"
normalizes to "kl", not to the claimed "kl 5". -/
theorem C4_from_now_strip_eval :
    (" fra nu".toList).isSuffixOf ("kl 5 fra nu".toList) = true ∧
    normalizeArg "kl 5 fra nu".toList = "kl".toList ∧
    normalizeArg "kl 5 fra nu".toList ≠ "kl 5".toList := by decide

/-- C8: `human_timedelta` never reaches its join logic: the `attrs` list
holds the Danish display words, but `getattr` on a `relativedelta` knows
only the English attribute names, so the very first lookup ("år") raises
`AttributeError` — here evaluated on a delta of exactly 2 days, where
the claim expects the rendering "2 dage". -/
theorem C8_render_attribute_error :
    rdiff ⟨2020, 1, 3, 0, 0, 0, 0⟩ ⟨2020, 1, 1, 0, 0, 0, 0⟩ = ⟨0, 0, 2, 0, 0, 0, 0⟩ ∧
    rdGetattr ⟨0, 0, 2, 0, 0, 0, 0⟩ "år" = none ∧
    rdGetattr ⟨0, 0, 2, 0, 0, 0, 0⟩ "days" = some 2 ∧
    human_timedelta ⟨2020, 1, 3, 0, 0, 0, 0⟩ ⟨2020, 1, 1, 0, 0, 0, 0⟩ =
      .error (.attributeError "år") := by decide

/-- C9: with both a sub-second and a whole-second component (2.5 s) the
delta gains exactly one second (3 s, microseconds kept) before
rendering; with only one of the two components non-zero nothing is
added; but the rendering itself then raises `AttributeError` (see C8),
so no output — fractional or otherwise — is ever produced. -/
theorem C9_subsecond_rounding_eval :
    humanDeltaAdjusted ⟨2020, 1, 1, 0, 0, 2, 500000⟩ ⟨2020, 1, 1, 0, 0, 0, 0⟩ =
      ⟨0, 0, 0, 0, 0, 3, 500000⟩ ∧
    humanDeltaAdjusted ⟨2020, 1, 1, 0, 0, 2, 0⟩ ⟨2020, 1, 1, 0, 0, 0, 0⟩ =
      ⟨0, 0, 0, 0, 0, 2, 0⟩ ∧
    humanDeltaAdjusted ⟨2020, 1, 1, 0, 0, 0, 500000⟩ ⟨2020, 1, 1, 0, 0, 0, 0⟩ =
      ⟨0, 0, 0, 0, 0, 0, 500000⟩ ∧
    human_timedelta ⟨2020, 1, 1, 0, 0, 2, 500000⟩ ⟨2020, 1, 1, 0, 0, 0, 0⟩ =
      .error (.attributeError "år") := by decide
